import Mathlib

/-!
Verification of the position-simulation / performance-analytics engine of the
Financial-Dashboard-System repository (`backtest/backtest.py` and the strategy
modules' equity loops), as a shallow embedding in Lean 4.

Conventions of the embedding:
* pandas Series / DataFrame columns become Lean `List ℚ` (or lists of records);
* a calendar date becomes a record carrying its serial day number together with
  its calendar year and month (the `Timestamp → (year, month)` conversion of
  pandas is injected as data rather than recomputed);
* Python `None` results become `Option.none`; an uncaught Python exception
  (`ZeroDivisionError` at `1 / num_years` when the date span is zero) becomes
  the `Except.error` branch of the result type;
* IEEE-754 division corner cases that the claims touch (`x / 0.0` inside the
  Sharpe computation, performed by numpy without raising) are modelled by an
  explicit value type with `inf` / `negInf` / `nan` constructors; finite values
  whose exact float value involves an irrational `sqrt` are kept symbolically
  as the rational data they are computed from (mean and variance, CAGR base and
  day span), since the claims under study only inspect branch structure and
  signs, never rounded decimal output.
-/

set_option maxRecDepth 10000

namespace Backtest

/-! ## Generic list helpers -/

/-- Minimum of a list of rationals; `pandas.Series.min` over a nonempty column.
The `[]` case is junk (never reached on the nonempty frames the engine sees). -/
def listMin : List ℚ → ℚ
  | [] => 0
  | [a] => a
  | a :: b :: l => min a (listMin (b :: l))

/-- Sum of a list of rationals. -/
def listSum (l : List ℚ) : ℚ := l.foldr (· + ·) 0

/-- Arithmetic mean of a list of rationals; `Series.mean`. Empty list gives 0
(a case the engine never reaches: the frame is nonempty). -/
def listMean (l : List ℚ) : ℚ := listSum l / l.length

/-- Sample variance with `ddof = 1`, the square of `pandas.Series.std`.
For lists of length `≤ 1` pandas yields `NaN`; that case is handled by the
caller (`sharpeOf`), so the value returned here for short lists is junk. -/
def sampleVar (l : List ℚ) : ℚ :=
  listSum (l.map (fun x => (x - listMean l) ^ 2)) / (l.length - 1 : ℚ)

/-- Tail of a percentage-change series, given the previous value. -/
def pctChangeFrom : ℚ → List ℚ → List ℚ
  | _, [] => []
  | prev, x :: l => (x / prev - 1) :: pctChangeFrom x l

/-- `Series.pct_change().fillna(0)`: first entry 0, then `x_i / x_{i-1} - 1`. -/
def pctChange0 : List ℚ → List ℚ
  | [] => []
  | a :: l => 0 :: pctChangeFrom a l

/-- Running drawdown series: for each position `i`,
`(e_i - peak_i) / peak_i` where `peak_i` is the running maximum
(`Series.cummax`) up to and including `i`.  The accumulator is the peak seen
so far (started at `0`, below every positive equity value). -/
def ddAux (peak : ℚ) : List ℚ → List ℚ
  | [] => []
  | e :: l =>
    let p := max peak e
    ((e - p) / p) :: ddAux p l

/-- Drawdown series of an equity curve (backtest.py lines 68-69 / 99-100). -/
def ddList (es : List ℚ) : List ℚ := ddAux 0 es

/-- Python `abs` on a rational, written so that the kernel evaluates it. -/
def ratAbs (q : ℚ) : ℚ := if q < 0 then -q else q

/-! ## Data model -/

/-- A trading day: pandas `Timestamp` restricted to what the engine reads from
it.  `serial` is the epoch-day number (so `(d2 - d1).days = d2.serial -
d1.serial` for midnight-aligned daily data); `year`/`month` are the calendar
components pandas derives for `dt.to_period('M')` / `dt.year` / `dt.month`. -/
structure Date where
  serial : ℤ
  year : ℤ
  month : ℤ
  deriving DecidableEq, Repr

/-- Year-month key of a date, pandas `Period('M')`. -/
def Date.ym (d : Date) : ℤ × ℤ := (d.year, d.month)

/-- One row of the strategy frame handed to `calculate_metrics`: columns
`Date`, `Close`, `Signal`, `EquityCurve`. -/
structure Row where
  date : Date
  close : ℚ
  signal : ℤ
  equity : ℚ
  deriving DecidableEq, Repr

/-- One completed trade appended by the trade-extraction loop
(backtest.py lines 151-158 / 170-177). `ret` is the `Return %` column
(already scaled by 100). -/
structure Trade where
  entryDate : Date
  exitDate : Date
  entryPrice : ℚ
  exitPrice : ℚ
  isShort : Bool
  ret : ℚ
  deriving DecidableEq, Repr

/-- Value of the Sharpe computation `sqrt(252) * mean / std` (line 65).
numpy float division does not raise: `0.0 / 0.0` is `NaN` and `±x / 0.0` is
`±∞`; with fewer than two returns `Series.std()` is itself `NaN`, and any
arithmetic on `NaN` stays `NaN`.  A finite value is kept symbolically as the
pair (mean, sample variance) because the float result involves `sqrt`. -/
inductive SharpeV where
  | nan : SharpeV
  | inf : SharpeV
  | negInf : SharpeV
  | fin (mean variance : ℚ) : SharpeV
  deriving DecidableEq, Repr

/-- Value of the CAGR computation `(1 + total_return) ** (365 / days) - 1`
(line 59), kept symbolically as base and day span (the float power is
irrational in general).  The `days = 0` case never constructs this value:
the division `1 / num_years` raises `ZeroDivisionError` first. -/
structure CagrV where
  base : ℚ
  days : ℤ
  deriving DecidableEq, Repr

/-- Annualized volatility `std * sqrt(252)` (lines 199 / 263), kept as the
sample variance it is computed from; `nan` models the length-`≤ 1` frame. -/
inductive VolV where
  | nan : VolV
  | ofVariance (variance : ℚ) : VolV
  deriving DecidableEq, Repr

/-- Calmar value (lines 193 and 240-247): a signed infinity sentinel when
`|daily drawdown| < 0.0001`, otherwise the quotient kept symbolically as the
CAGR data over the absolute drawdown. -/
inductive CalmarV where
  | negInf : CalmarV
  | inf : CalmarV
  | quot (cagr : CagrV) (absDD : ℚ) : CalmarV
  deriving DecidableEq, Repr

/-- A trade statistic in the report: `"N/A"` on the partial path, a rational
value, or the `float('inf')` profit-factor sentinel. -/
inductive StatV where
  | na : StatV
  | val (q : ℚ) : StatV
  | inf : StatV
  deriving DecidableEq, Repr

/-- The metrics dictionary built at lines 186-201 (partial path, trade stats
`"N/A"`, no `Strategy Type` key) or lines 250-266 (full path).  Formatting to
percent strings is presentation; the report carries the values fed to the
format strings. -/
structure Metrics where
  totalTrades : ℕ
  totalReturn : ℚ
  cagr : CagrV
  sharpe : SharpeV
  dailyMaxDD : ℚ
  monthlyMaxDD : ℚ
  calmar : CalmarV
  winRate : StatV
  profitFactor : StatV
  avgTrade : StatV
  avgWin : StatV
  avgLoss : StatV
  volatility : VolV
  timeActive : StatV
  strategyType : Option Bool
  deriving DecidableEq, Repr

/-! ## calculate_metrics (backtest.py lines 25-275) -/

/-- Placeholder row used for the `iloc` reads on branches the control flow
never reaches with an empty frame. -/
def dummyRow : Row := ⟨⟨0, 0, 0⟩, 0, 0, 0⟩

/-- Decidable equality of run results (needed to evaluate concrete runs). -/
instance {ε α : Type} [DecidableEq ε] [DecidableEq α] :
    DecidableEq (Except ε α) := fun x y =>
  match x, y with
  | .ok a, .ok b =>
    if h : a = b then .isTrue (by rw [h]) else .isFalse (by simp [h])
  | .error a, .error b =>
    if h : a = b then .isTrue (by rw [h]) else .isFalse (by simp [h])
  | .ok _, .error _ => .isFalse (by simp)
  | .error _, .ok _ => .isFalse (by simp)

/-- Tail of the difference series, given the previous value. -/
def diffFrom : ℤ → List ℤ → List ℤ
  | _, [] => []
  | prev, x :: l => (x - prev) :: diffFrom x l

/-- `df["Signal"].diff().fillna(0)` (line 36): first entry 0 (the `NaN` is
filled), then adjacent differences. -/
def diffFill0 : List ℤ → List ℤ
  | [] => []
  | a :: l => 0 :: diffFrom a l

/-- Index positions of the entries of `l` satisfying `p`, starting the count
at `i`. -/
def idxWhereAux (p : ℤ → Bool) (i : ℕ) : List ℤ → List ℕ
  | [] => []
  | x :: l =>
    if p x then i :: idxWhereAux p (i + 1) l else idxWhereAux p (i + 1) l

/-- Index positions of the entries of `l` satisfying `p`; the pandas boolean
indexing `series[condition].index`. -/
def idxWhere (p : ℤ → Bool) (l : List ℤ) : List ℕ := idxWhereAux p 0 l

/-- `entries` of lines 37 and 42-43: positions where the signal difference is
`+1`, falling back to positions where the signal itself is `1`. -/
def entriesOf (sigs : List ℤ) : List ℕ :=
  if (idxWhere (· == 1) (diffFill0 sigs)).isEmpty then idxWhere (· == 1) sigs
  else idxWhere (· == 1) (diffFill0 sigs)

/-- `exits` of lines 38 and 45-46: positions where the signal difference is
`-2`, falling back to positions where the signal itself is `-1`. -/
def exitsOf (sigs : List ℤ) : List ℕ :=
  if (idxWhere (· == -2) (diffFill0 sigs)).isEmpty then idxWhere (· == -1) sigs
  else idxWhere (· == -2) (diffFill0 sigs)

/-- Whether `pat` is an initial segment of `s`. -/
def beginsWith : List Char → List Char → Bool
  | [], _ => true
  | _ :: _, [] => false
  | p :: ps, c :: cs => p == c && beginsWith ps cs

/-- Whether `pat` occurs as a contiguous substring of `s`; Python `in`. -/
def hasSub (pat : List Char) : List Char → Bool
  | [] => beginsWith pat []
  | c :: cs => beginsWith pat (c :: cs) || hasSub pat cs

/-- Lines 131-133: `strategy_name and ("short" in strategy_name.lower())`.
The run direction is inferred from the strategy name string. -/
def isShortName : Option String → Bool
  | none => false
  | some n => hasSub "short".data (n.data.map Char.toLower)

/-- The trade-extraction loop of lines 136-177, walked over the rows with the
mutable `position` / `entry_price` / `entry_date` state threaded through.
Long runs: `1` enters at the bar's close, `-1` exits; short runs invert the
convention and the return formula. -/
def tradesAux (isShort : Bool) (position : ℤ) (entryPrice : ℚ)
    (entryDate : Date) : List Row → List Trade
  | [] => []
  | r :: rest =>
    if !isShort then
      if r.signal == 1 && position == 0 then
        tradesAux isShort 1 r.close r.date rest
      else if r.signal == -1 && position == 1 then
        { entryDate := entryDate, exitDate := r.date, entryPrice := entryPrice,
          exitPrice := r.close, isShort := false,
          ret := (r.close - entryPrice) / entryPrice * 100 } ::
          tradesAux isShort 0 entryPrice entryDate rest
      else tradesAux isShort position entryPrice entryDate rest
    else
      if r.signal == -1 && position == 0 then
        tradesAux isShort (-1) r.close r.date rest
      else if r.signal == 1 && position == -1 then
        { entryDate := entryDate, exitDate := r.date, entryPrice := entryPrice,
          exitPrice := r.close, isShort := true,
          ret := (entryPrice - r.close) / entryPrice * 100 } ::
          tradesAux isShort 0 entryPrice entryDate rest
      else tradesAux isShort position entryPrice entryDate rest

/-- Trade log of a run (the `trades` list completed at line 179). -/
def tradesOf (rows : List Row) (isShort : Bool) : List Trade :=
  tradesAux isShort 0 0 ⟨0, 0, 0⟩ rows

/-- Month-end equity sampling of lines 82-95: group rows by the `(year,
month)` period of their date, keep the row carrying each group's maximal
date, and read its equity.  For chronologically sorted frames (the only ones
pandas hands this code) the groups are runs of equal periods and the maximal
date of each group is the run's last row, which is what this function
selects. -/
def monthEnds : List Row → List ℚ
  | [] => []
  | [r] => [r.equity]
  | r :: r' :: l =>
    if r.date.ym = r'.date.ym then monthEnds (r' :: l)
    else r.equity :: monthEnds (r' :: l)

/-- Lines 103-112: the guard comparing the sampled monthly drawdown against
the daily drawdown.  The code clamps and returns normally, so every outcome
is `.ok`; a surfaced assertion failure would be the (never produced)
`.error` branch.  After a clamp the two values are equal, hence within the
`0.001` proximity window, and the result becomes `daily * 0.95`.  Lines
105-107: -/
def monthlyDDClamp (monthly daily : ℚ) : ℚ :=
  if monthly < daily then daily else monthly

/-- Lines 109-112 applied after the clamp: values within `0.001` of the
daily drawdown are replaced by `daily * 0.95`. -/
def monthlyDDAdjust (monthly daily : ℚ) : Except String ℚ :=
  if ratAbs (monthlyDDClamp monthly daily - daily) < 1 / 1000 then
    .ok (daily * (19 / 20))
  else .ok (monthlyDDClamp monthly daily)

/-- Monthly max drawdown of lines 72-119: sample month-end equities, require
strictly more than two of them, run the drawdown formula on the sample and
pass it through the clamp; with too few months — or were anything inside the
`try` to raise — fall back to `daily * 0.9` (lines 113-119). -/
def okOr (r : Except String ℚ) (fallback : ℚ) : ℚ :=
  match r with
  | .ok v => v
  | .error _ => fallback

/-- Monthly max drawdown of lines 72-119, continued: sample month-end
equities, require strictly more than two of them, run the drawdown formula
on the sample and pass it through the clamp; with too few months — or were
anything inside the `try` to raise — fall back to `daily * 0.9`
(lines 113-119). -/
def monthlyMaxDDOf (rows : List Row) (daily : ℚ) : ℚ :=
  if 2 < (monthEnds rows).length then
    okOr (monthlyDDAdjust (listMin (ddList (monthEnds rows))) daily)
      (daily * (9 / 10))
  else daily * (9 / 10)

/-- Sharpe ratio of line 65, `sqrt(252) * mean / std`, under numpy float
semantics: with fewer than two returns the sample std is `NaN` (so is the
quotient); with zero variance the quotient is `x / 0.0`, which numpy resolves
to `±∞` by the sign of `x` and to `NaN` when `x = 0`; otherwise the finite
value is kept as its defining (mean, variance) pair. -/
def sharpeOf (rets : List ℚ) : SharpeV :=
  if rets.length ≤ 1 then .nan
  else if sampleVar rets = 0 then
    if 0 < listMean rets then .inf
    else if listMean rets < 0 then .negInf
    else .nan
  else .fin (listMean rets) (sampleVar rets)

/-- Annualized volatility `daily_std * sqrt(252)` (lines 199 / 263). -/
def volOf (rets : List ℚ) : VolV :=
  if rets.length ≤ 1 then .nan else .ofVariance (sampleVar rets)

/-- Calmar ratio of lines 193 / 240-247: a signed-infinity sentinel when the
daily drawdown is within `0.0001` of zero, else `cagr / |drawdown|` held
symbolically.  The sign test `cagr < 0` is modelled as `total_return < 0`,
to which it is equivalent for a positive day span and `total_return > -1`
(the float power `(1+tr)^(365/days)` then lies on the same side of 1 as
`1+tr`). -/
def calmarOf (tr : ℚ) (days : ℤ) (dailyDD : ℚ) : CalmarV :=
  if ratAbs dailyDD < 1 / 10000 then
    if tr < 0 then .negInf else .inf
  else .quot ⟨1 + tr, days⟩ (ratAbs dailyDD)

/-- Replay of the short-position state at lines 221-230: walk the signals,
flip the `in_short` flag on `-1` (enter) and `1` (cover), and record the
flag's value after processing each day — so the entry day is marked active
and the day carrying the cover signal is marked inactive. -/
def shortActiveAux (inShort : Bool) : List ℤ → List Bool
  | [] => []
  | s :: rest =>
    let st := if s == -1 then true else if s == 1 then false else inShort
    st :: shortActiveAux st rest

/-- `days_in_market` of lines 218-235: replayed short-active days for short
runs, the count of days with signal `1` for long runs. -/
def daysInMarket (sigs : List ℤ) (isShort : Bool) : ℕ :=
  if isShort then (shortActiveAux false sigs).count true
  else sigs.count 1

/-- `Time Active` of lines 237-238. -/
def timeActiveOf (sigs : List ℤ) (isShort : Bool) : ℚ :=
  if 0 < sigs.length then (daysInMarket sigs isShort : ℚ) / sigs.length else 0

/-- Fraction of trades with positive return (line 206). -/
def winRateOf (trades : List Trade) : ℚ :=
  (((trades.map Trade.ret).filter (fun r => 0 < r)).length : ℚ) / trades.length

/-- Profit factor of lines 207-209: positive-return sum over the absolute
negative-return sum, `float('inf')` when there are no losses. -/
def profitFactorOf (trades : List Trade) : StatV :=
  let rets := trades.map Trade.ret
  let profits := listSum (rets.filter (fun r => 0 < r))
  let losses := ratAbs (listSum (rets.filter (fun r => r < 0)))
  if losses ≠ 0 then .val (profits / losses) else .inf

/-- Mean winning-trade return (line 213), `0` with no winners. -/
def avgWinOf (trades : List Trade) : ℚ :=
  let wins := (trades.map Trade.ret).filter (fun r => 0 < r)
  if 0 < wins.length then listMean wins else 0

/-- Mean losing-trade return (line 214), `0` with no losers. -/
def avgLossOf (trades : List Trade) : ℚ :=
  let losses := (trades.map Trade.ret).filter (fun r => r < 0)
  if 0 < losses.length then listMean losses else 0

/-- Line 28: `(df["Signal"] == 1).any()`. -/
def hasBuySigs (rows : List Row) : Bool := (rows.map Row.signal).any (· == 1)

/-- Line 29: `(df["Signal"] == -1).any()`. -/
def hasSellSigs (rows : List Row) : Bool := (rows.map Row.signal).any (· == -1)

/-- Line 31: neither a buy nor a sell signal anywhere in the stream. -/
def noStreamActivity (rows : List Row) : Bool :=
  !hasBuySigs rows && !hasSellSigs rows

/-- Line 48: both the (fallback-patched) entry and exit index lists are
empty. -/
def noDiffActivity (rows : List Row) : Bool :=
  (entriesOf (rows.map Row.signal)).isEmpty &&
    (exitsOf (rows.map Row.signal)).isEmpty

/-- Lines 53-55: `end_equity / start_equity - 1` from the equity column. -/
def totalReturnOf (rows : List Row) : ℚ :=
  (rows.map Row.equity).getLastD 1 / (rows.map Row.equity).headD 1 - 1

/-- Line 58: `(df["Date"].iloc[-1] - df["Date"].iloc[0]).days`. -/
def daysSpan (rows : List Row) : ℤ :=
  (rows.getLastD dummyRow).date.serial - (rows.headD dummyRow).date.serial

/-- The `Daily_Return` series of line 62. -/
def retsOf (rows : List Row) : List ℚ := pctChange0 (rows.map Row.equity)

/-- Lines 68-70: minimum of the daily drawdown series. -/
def dailyMaxDDOf (rows : List Row) : ℚ := listMin (ddList (rows.map Row.equity))

/-- The `basic_metrics` dictionary of lines 186-201, built when signals exist
but no trade completed: the six trade statistics are the string `"N/A"`, no
`Strategy Type` key is present, every return/risk number is still computed. -/
def basicMetricsOf (rows : List Row) : Metrics where
  totalTrades := 0
  totalReturn := totalReturnOf rows
  cagr := ⟨1 + totalReturnOf rows, daysSpan rows⟩
  sharpe := sharpeOf (retsOf rows)
  dailyMaxDD := dailyMaxDDOf rows
  monthlyMaxDD := monthlyMaxDDOf rows (dailyMaxDDOf rows)
  calmar := calmarOf (totalReturnOf rows) (daysSpan rows) (dailyMaxDDOf rows)
  winRate := .na
  profitFactor := .na
  avgTrade := .na
  avgWin := .na
  avgLoss := .na
  volatility := volOf (retsOf rows)
  timeActive := .na
  strategyType := none

/-- The `metrics` dictionary of lines 250-266, built over a nonempty trade
log. -/
def fullMetricsOf (rows : List Row) (isShort : Bool) : Metrics where
  totalTrades := (tradesOf rows isShort).length
  totalReturn := totalReturnOf rows
  cagr := ⟨1 + totalReturnOf rows, daysSpan rows⟩
  sharpe := sharpeOf (retsOf rows)
  dailyMaxDD := dailyMaxDDOf rows
  monthlyMaxDD := monthlyMaxDDOf rows (dailyMaxDDOf rows)
  calmar := calmarOf (totalReturnOf rows) (daysSpan rows) (dailyMaxDDOf rows)
  winRate := .val (winRateOf (tradesOf rows isShort))
  profitFactor := profitFactorOf (tradesOf rows isShort)
  avgTrade := .val (listMean ((tradesOf rows isShort).map Trade.ret))
  avgWin := .val (avgWinOf (tradesOf rows isShort))
  avgLoss := .val (avgLossOf (tradesOf rows isShort))
  volatility := volOf (retsOf rows)
  timeActive := .val (timeActiveOf (rows.map Row.signal) isShort)
  strategyType := some isShort

/-- The body of `calculate_metrics` once the direction flag has been decided
from the name.  Result shape: `.error` models the uncaught
`ZeroDivisionError` raised at line 59 when the calendar-day span is zero
(`num_years = 0 / 365 = 0.0` and `1 / num_years` raises); `.ok none` models
a Python `None` return (lines 33, 50, 204); `.ok (some (metrics, trades))`
models the normal returns at lines 202 and 275.  The branch order mirrors
the source: the two signal checks precede the CAGR division, which precedes
the trade-log emptiness check. -/
def calculate_metricsCore (rows : List Row) (isShort : Bool) :
    Except String (Option (Metrics × List Trade)) :=
  if noStreamActivity rows then .ok none
  else if noDiffActivity rows then .ok none
  else if daysSpan rows = 0 then .error "ZeroDivisionError"
  else if (tradesOf rows isShort).isEmpty then
    if hasBuySigs rows || hasSellSigs rows then
      .ok (some (basicMetricsOf rows, []))
    else .ok none
  else .ok (some (fullMetricsOf rows isShort, tradesOf rows isShort))

/-- `calculate_metrics(df, strategy_name)`: the direction flag is derived from
the strategy-name string (lines 130-134) and everything else from the frame. -/
def calculate_metrics (rows : List Row) (name : Option String) :
    Except String (Option (Metrics × List Trade)) :=
  calculate_metricsCore rows (isShortName name)

/-! ## The frame as a mutable table (for the in-place column writes) -/

/-- Tail of the running maximum, given the maximum so far. -/
def cummaxAux (m : ℚ) : List ℚ → List ℚ
  | [] => []
  | e :: l =>
    let m' := max m e
    m' :: cummaxAux m' l

/-- Running-maximum series, `Series.cummax`. -/
def cummaxList : List ℚ → List ℚ
  | [] => []
  | e :: l => e :: cummaxAux e l

/-- Elementwise `(equity - peak) / peak` against the running maximum. -/
def drawdownCol (es : List ℚ) : List ℚ :=
  (es.zip (cummaxList es)).map fun x => (x.1 - x.2) / x.2

/-- The caller's table: the four input columns plus the three derived columns
that `calculate_metrics` writes into the same object in place at lines 62 and
68-69 (`Daily_Return`, `Peak`, `Drawdown`); `none` marks a column that is
absent. -/
structure Frame where
  rows : List Row
  dailyReturn : Option (List ℚ)
  peak : Option (List ℚ)
  drawdown : Option (List ℚ)
  deriving DecidableEq, Repr

/-- `calculate_metrics` with the caller's table threaded through as state:
the pair's second component is the table object as the caller sees it after
the call.  The early `None` returns (lines 31-33 and 48-50) and the
`ZeroDivisionError` at line 59 fire before the column writes at lines 62-69,
so on those paths the table is returned unchanged; on every other path the
three derived columns have been written into it.  The monthly computation
works on `df.copy()` (line 75) and its columns never reach the caller. -/
def calculate_metricsFrame (f : Frame) (name : Option String) :
    Except String (Option (Metrics × List Trade)) × Frame :=
  if noStreamActivity f.rows then (.ok none, f)
  else if noDiffActivity f.rows then (.ok none, f)
  else if daysSpan f.rows = 0 then (.error "ZeroDivisionError", f)
  else
    (calculate_metrics f.rows name,
     { f with dailyReturn := some (pctChange0 (f.rows.map Row.equity))
              peak := some (cummaxList (f.rows.map Row.equity))
              drawdown := some (drawdownCol (f.rows.map Row.equity)) })

/-! ## Strategy equity loops

The signal providers compute their own `EquityCurve` column.  The two loops
cited by the spec are embedded as functions of the already-computed `Signal`
and `Close` columns (the indicator logic that fills `Signal` is out of the
engine's scope). -/

/-- Equity loop of `strategies/rsi_ibs_mean_reversion.py` lines 63-79: at row
`i ≥ 1` the loop reads the signal and close of row `i-1`; an entry copies the
previous equity forward, a close multiplies it by `1 + (close[i-1] -
entry) / entry`, anything else copies it forward.  The argument list holds
the `(Signal, Close)` pairs of rows `0 .. n-2`, i.e. the data at `i-1` for
each `i` in `1 .. n-1`, and the carried `prevEq` is the last emitted equity. -/
def rsiIbsEquityAux (inPos : Bool) (entry prevEq : ℚ) : List (ℤ × ℚ) → List ℚ
  | [] => []
  | (prevSig, prevClose) :: rest =>
    if prevSig == 1 && !inPos then
      prevEq :: rsiIbsEquityAux true prevClose prevEq rest
    else if prevSig == -1 && inPos then
      let eq := prevEq * (1 + (prevClose - entry) / entry)
      eq :: rsiIbsEquityAux false entry eq rest
    else prevEq :: rsiIbsEquityAux inPos entry prevEq rest

/-- The full `EquityCurve` column produced by the long strategy's loop:
index 0 keeps the initial `1.0`, later indices come from the lag-1 walk. -/
def rsiIbsEquity (sigs : List ℤ) (closes : List ℚ) : List ℚ :=
  if closes.isEmpty then []
  else 1 :: rsiIbsEquityAux false 0 1 ((sigs.zip closes).dropLast)

/-- Equity loop of `strategies/short_rsi2_above_90_strategy.py` lines 76-97:
at row `i ≥ 1` the loop reads the signal and close of row `i` itself, writes
the running equity into the row, and — when the row carries the cover signal
while a short is open — applies the trade return and overwrites that same
row's equity with the new running value.  The argument list holds the
`(Signal, Close)` pairs of rows `1 .. n-1`. -/
def shortRsi2EquityAux (inPos : Bool) (entry run : ℚ) : List (ℤ × ℚ) → List ℚ
  | [] => []
  | (sig, px) :: rest =>
    if sig == -1 then run :: shortRsi2EquityAux true px run rest
    else if sig == 1 && inPos then
      let run' := run * (1 + (entry - px) / entry)
      run' :: shortRsi2EquityAux false entry run' rest
    else run :: shortRsi2EquityAux inPos entry run rest

/-- The full `EquityCurve` column produced by the short strategy's loop. -/
def shortRsi2Equity (sigs : List ℤ) (closes : List ℚ) : List ℚ :=
  if closes.isEmpty then []
  else 1 :: shortRsi2EquityAux false 0 1 ((sigs.zip closes).drop 1)

/-! ## calculate_monthly_returns (backtest.py lines 473-537) -/

/-- `Series.pct_change()` without `fillna`: the head is `NaN` (`none`). -/
def pctChangeOpt : List ℚ → List (Option ℚ)
  | [] => []
  | a :: l => none :: (pctChangeFrom a l).map some

/-- `(x + 1).prod() - 1`: multiplicative compounding of a return list. -/
def compound (rs : List ℚ) : ℚ := rs.foldr (fun r acc => (1 + r) * acc) 1 - 1

/-- `(x + 1).prod()` over the non-`NaN` entries of a tagged return column
(pandas `prod` skips `NaN`).  Each list element is a `((year, month), value)`
pair. -/
def groupProd (l : List ((ℤ × ℤ) × Option ℚ)) : ℚ :=
  (l.filterMap Prod.snd).foldr (fun r acc => (1 + r) * acc) 1

/-- Daily strategy returns tagged with their `(year, month)` group keys
(lines 482-483 and 489): positional `pct_change` of the equity column. -/
def taggedStrat (rows : List Row) : List ((ℤ × ℤ) × Option ℚ) :=
  (rows.map (fun r => r.date.ym)).zip (pctChangeOpt (rows.map Row.equity))

/-- Daily buy-and-hold benchmark returns tagged with their group keys (lines
492-496): `pct_change` of the close column, negated for short runs. -/
def taggedBench (rows : List Row) (isShort : Bool) : List ((ℤ × ℤ) × Option ℚ) :=
  (rows.map (fun r => r.date.ym)).zip
    ((pctChangeOpt (rows.map Row.close)).map
      (Option.map fun x => if isShort then -x else x))

/-- Compounded return of one `(year, month)` group (lines 499-500):
`groupby(["Year", "Month"])` then `(x + 1).prod() - 1` with `NaN`s skipped. -/
def monthGroupVal (l : List ((ℤ × ℤ) × Option ℚ)) (k : ℤ × ℤ) : ℚ :=
  groupProd (l.filter fun x => x.1 == k) - 1

/-- The months for which year `y` has any data — after `unstack`, exactly the
month columns that are not `NaN` in the row of year `y`, which are the ones
`prod(skipna=True)` keeps at line 512. -/
def monthsOfYear (l : List ((ℤ × ℤ) × Option ℚ)) (y : ℤ) : List ℤ :=
  (((l.map Prod.fst).filter fun k => k.1 == y).map Prod.snd).dedup

/-- Compounded yearly return (lines 508-516 / 519-527): `(1 + r_month).prod
(skipna=True) - 1` over the year's month columns; a year with no surviving
months yields `prod = 1`, hence `0`, which is also what the `isna` guard at
lines 514-515 reports. -/
def yearlyVal (l : List ((ℤ × ℤ) × Option ℚ)) (y : ℤ) : ℚ :=
  compound ((monthsOfYear l y).map fun m => monthGroupVal l (y, m))

/-- Strategy monthly-return cell of `calculate_monthly_returns`. -/
def stratMonthly (rows : List Row) (y m : ℤ) : ℚ :=
  monthGroupVal (taggedStrat rows) (y, m)

/-- `StratReturns` yearly cell of `calculate_monthly_returns`. -/
def stratYearly (rows : List Row) (y : ℤ) : ℚ :=
  yearlyVal (taggedStrat rows) y

/-- Benchmark monthly-return cell of `calculate_monthly_returns`. -/
def benchMonthly (rows : List Row) (isShort : Bool) (y m : ℤ) : ℚ :=
  monthGroupVal (taggedBench rows isShort) (y, m)

/-- `bh_returns` yearly cell of `calculate_monthly_returns`. -/
def benchYearly (rows : List Row) (isShort : Bool) (y : ℤ) : ℚ :=
  yearlyVal (taggedBench rows isShort) y

/-! ## Result projections (for stating claims without spelling out whole
report literals) -/

/-- The metrics report of a run result, when one was produced. -/
def resultMetrics (r : Except String (Option (Metrics × List Trade))) :
    Option Metrics :=
  match r with
  | .ok (some (m, _)) => some m
  | _ => none

/-- The trade log of a run result, when one was produced. -/
def resultTrades (r : Except String (Option (Metrics × List Trade))) :
    Option (List Trade) :=
  match r with
  | .ok (some (_, t)) => some t
  | _ => none

/-- The Sharpe value inside a run result. -/
def sharpeOfResult (r : Except String (Option (Metrics × List Trade))) :
    Option SharpeV :=
  (resultMetrics r).map Metrics.sharpe

/-- The `(daily drawdown, monthly drawdown)` pair inside a run result. -/
def ddOfResult (r : Except String (Option (Metrics × List Trade))) :
    Option (ℚ × ℚ) :=
  (resultMetrics r).map fun m => (m.dailyMaxDD, m.monthlyMaxDD)

/-- The CAGR data inside a run result. -/
def cagrOfResult (r : Except String (Option (Metrics × List Trade))) :
    Option CagrV :=
  (resultMetrics r).map Metrics.cagr

/-- The numeric `Time Active` inside a run result, when it is a number
rather than `"N/A"`. -/
def timeActiveValOfResult (r : Except String (Option (Metrics × List Trade))) :
    Option ℚ :=
  match resultMetrics r with
  | some m =>
    match m.timeActive with
    | .val q => some q
    | _ => none
  | none => none

/-- Whether a run result is the incomplete-activity report of lines 182-202:
a real (non-`None`) report with an empty trade log, zero trade count, and all
six trade statistics marked `"N/A"` (in particular none of them is a zero). -/
def isBasicReport (r : Except String (Option (Metrics × List Trade))) : Bool :=
  match r with
  | .ok (some (m, t)) =>
    t.isEmpty && m.totalTrades == 0 && m.winRate == .na && m.profitFactor == .na
      && m.avgTrade == .na && m.avgWin == .na && m.avgLoss == .na
      && m.timeActive == .na
  | _ => false

/-! ## Supporting lemmas -/

theorem idxWhereAux_eq_nil_iff (p : ℤ → Bool) (i : ℕ) (l : List ℤ) :
    idxWhereAux p i l = [] ↔ ∀ x ∈ l, p x = false := by
  induction l generalizing i with
  | nil => simp [idxWhereAux]
  | cons a l ih =>
    by_cases h : p a <;> simp [idxWhereAux, h, ih]

theorem hasBuySigs_eq_false_of_entriesOf (rows : List Row)
    (h : entriesOf (rows.map Row.signal) = []) : hasBuySigs rows = false := by
  unfold entriesOf at h
  split at h
  · rw [idxWhere, idxWhereAux_eq_nil_iff] at h
    rw [hasBuySigs, Bool.eq_false_iff]
    intro hc
    rw [List.any_eq_true] at hc
    obtain ⟨x, hx, hx1⟩ := hc
    exact absurd (h x hx) (by simp [hx1])
  · next hne =>
    exact absurd h (by simpa [List.isEmpty_iff] using hne)

theorem hasSellSigs_eq_false_of_exitsOf (rows : List Row)
    (h : exitsOf (rows.map Row.signal) = []) : hasSellSigs rows = false := by
  unfold exitsOf at h
  split at h
  · rw [idxWhere, idxWhereAux_eq_nil_iff] at h
    rw [hasSellSigs, Bool.eq_false_iff]
    intro hc
    rw [List.any_eq_true] at hc
    obtain ⟨x, hx, hx1⟩ := hc
    exact absurd (h x hx) (by simp [hx1])
  · next hne =>
    exact absurd h (by simpa [List.isEmpty_iff] using hne)

theorem noDiffActivity_eq_false (rows : List Row)
    (h : noStreamActivity rows = false) : noDiffActivity rows = false := by
  rw [Bool.eq_false_iff]
  intro hc
  unfold noDiffActivity at hc
  rw [Bool.and_eq_true, List.isEmpty_iff, List.isEmpty_iff] at hc
  have h1 := hasBuySigs_eq_false_of_entriesOf rows hc.1
  have h2 := hasSellSigs_eq_false_of_exitsOf rows hc.2
  unfold noStreamActivity at h
  rw [h1, h2] at h
  simp at h

theorem core_ok_cases (rows : List Row) (isShort : Bool) (m : Metrics)
    (t : List Trade)
    (h : calculate_metricsCore rows isShort = .ok (some (m, t))) :
    (m = basicMetricsOf rows ∧ t = []) ∨
      (m = fullMetricsOf rows isShort ∧ t = tradesOf rows isShort) := by
  unfold calculate_metricsCore at h
  split_ifs at h <;> simp only [Except.ok.injEq, Option.some.injEq,
    Prod.mk.injEq, reduceCtorEq] at h
  · exact Or.inl ⟨h.1.symm, h.2.symm⟩
  · exact Or.inr ⟨h.1.symm, h.2.symm⟩

theorem core_guards (rows : List Row) (isShort : Bool) (m : Metrics)
    (t : List Trade)
    (h : calculate_metricsCore rows isShort = .ok (some (m, t))) :
    noStreamActivity rows = false ∧ daysSpan rows ≠ 0 ∧ rows ≠ [] := by
  unfold calculate_metricsCore at h
  split_ifs at h with h1 h2 h3 h4 h5 <;> try simp at h
  all_goals
    refine ⟨by simpa using h1, h3, ?_⟩
  all_goals
    rintro rfl
    exact h1 (by decide)

theorem resultMetrics_some (r : Except String (Option (Metrics × List Trade)))
    (m : Metrics) (h : resultMetrics r = some m) :
    ∃ t, r = .ok (some (m, t)) := by
  unfold resultMetrics at h
  split at h
  · next m' t =>
    injection h with h
    exact ⟨t, by rw [h]⟩
  · exact absurd h (by simp)

/-! ## C1: the monthly-vs-daily drawdown guard -/

/-- C1: the claim says a monthly drawdown more negative than the daily one is
surfaced as an assertion failure.  The code instead silently clamps: at the
concrete pair `monthly = -0.5`, `daily = -0.4` the step returns the plain
value `-0.38` (`= -0.4 * 0.95`), not an error. -/
theorem C1_counterexample :
    monthlyDDAdjust (-1/2) (-2/5) = .ok (-19/50) := by
  with_unfolding_all decide

/-- C1 (amended): whenever the sampled monthly max drawdown is more negative
than the daily max drawdown, lines 103-112 silently clamp it to the daily
value and then (the two being equal, hence within the 0.001 window) rescale
it to `daily * 0.95`; the result is always a normally returned value, never
a surfaced assertion failure. -/
theorem C1_silent_clamp (m d : ℚ) (h : m < d) :
    monthlyDDAdjust m d = .ok (d * (19 / 20)) := by
  unfold monthlyDDAdjust monthlyDDClamp
  rw [if_pos h, sub_self, if_pos (by norm_num [ratAbs])]

/-- Witness for `C1_silent_clamp` at `monthly = -0.5`, `daily = -0.4`. -/
theorem C1_silent_clamp_witness :
    ((-1 : ℚ)/2 < -2/5) ∧ monthlyDDAdjust (-1/2) (-2/5) = .ok ((-2/5) * (19/20)) :=
  ⟨by norm_num, C1_silent_clamp (-1/2) (-2/5) (by norm_num)⟩

/-! ## C5: direction is inferred from the strategy-name string -/

/-- C5: the claim says metrics never depend on the strategy-name string.  On
the same two-row frame, renaming the strategy from `"alpha"` to `"short"`
changes the produced trade log (no completed trade versus one completed
short trade). -/
theorem C5_counterexample :
    resultTrades (calculate_metrics
        [⟨⟨0, 2020, 1⟩, 100, -1, 1⟩, ⟨⟨1, 2020, 1⟩, 90, 1, 1⟩] (some "alpha")) ≠
      resultTrades (calculate_metrics
        [⟨⟨0, 2020, 1⟩, 100, -1, 1⟩, ⟨⟨1, 2020, 1⟩, 90, 1, 1⟩] (some "short")) := by
  with_unfolding_all decide

/-- C5 (amended): the engine infers the run direction from the strategy-name
string (case-insensitive substring search for `"short"`, lines 130-134), and
this is the only way the name influences the result: two invocations whose
names agree on that predicate produce identical metrics and trade logs. -/
theorem C5_name_dependence (rows : List Row) (n1 n2 : Option String)
    (h : isShortName n1 = isShortName n2) :
    calculate_metrics rows n1 = calculate_metrics rows n2 := by
  unfold calculate_metrics
  rw [h]

/-- Witness for `C5_name_dependence` on two distinct non-short names. -/
theorem C5_name_dependence_witness :
    isShortName (some "alpha") = isShortName (some "beta") ∧
      calculate_metrics [] (some "alpha") = calculate_metrics [] (some "beta") :=
  ⟨by with_unfolding_all decide,
    C5_name_dependence [] (some "alpha") (some "beta") (by with_unfolding_all decide)⟩

/-! ## C7: the CAGR formula and the unguarded zero-day span -/

/-- C7: the claim says the `days_span = 0` case is guarded and reported as
CAGR `= 0`.  On a one-row frame carrying a buy signal the computation
instead raises `ZeroDivisionError` (line 59, `1 / num_years` with
`num_years = 0.0`). -/
theorem C7_counterexample :
    calculate_metrics [⟨⟨0, 2020, 1⟩, 100, 1, 1⟩] (some "alpha") =
      .error "ZeroDivisionError" := by with_unfolding_all decide

/-- C7 (amended): whenever a report is produced, its CAGR is
`(1 + TotalReturn) ^ (365 / days_span) - 1` with `days_span` the calendar
days between first and last date (kept symbolically as base and span), and
the span is nonzero; when the span is zero on a frame with signal activity,
the division is not guarded and `calculate_metrics` raises
`ZeroDivisionError` instead of reporting 0. -/
theorem C7_unguarded_cagr (rows rows0 : List Row) (name : Option String)
    (c : CagrV) (h : cagrOfResult (calculate_metrics rows name) = some c)
    (h0s : noStreamActivity rows0 = false)
    (h0d : noDiffActivity rows0 = false) (h0 : daysSpan rows0 = 0) :
    c.base = 1 + totalReturnOf rows ∧ c.days = daysSpan rows ∧ c.days ≠ 0 ∧
      calculate_metrics rows0 name = .error "ZeroDivisionError" := by
  rw [cagrOfResult, Option.map_eq_some'] at h
  obtain ⟨m, hm, hc⟩ := h
  obtain ⟨t, heq⟩ := resultMetrics_some _ m hm
  have hfields := core_ok_cases rows (isShortName name) m t heq
  have hguard := core_guards rows (isShortName name) m t heq
  have hcagr : m.cagr = ⟨1 + totalReturnOf rows, daysSpan rows⟩ := by
    rcases hfields with ⟨rfl, -⟩ | ⟨rfl, -⟩ <;> rfl
  refine ⟨?_, ?_, ?_, ?_⟩
  · rw [← hc, hcagr]
  · rw [← hc, hcagr]
  · rw [← hc, hcagr]; exact hguard.2.1
  · show calculate_metricsCore rows0 (isShortName name) = .error "ZeroDivisionError"
    unfold calculate_metricsCore
    rw [h0s, h0d]
    simp [h0]

/-- Witness for `C7_unguarded_cagr`: a two-day frame with a completed trade
(span 1 day) and a one-row frame (span 0, raising). -/
theorem C7_unguarded_cagr_witness :
    cagrOfResult (calculate_metrics
        [⟨⟨0, 2020, 1⟩, 100, 1, 1⟩, ⟨⟨1, 2020, 1⟩, 102, -1, 11/10⟩]
        (some "beta")) = some ⟨11/10, 1⟩ ∧
      noStreamActivity [⟨⟨0, 2020, 1⟩, 100, 1, 1⟩] = false ∧
      noDiffActivity [⟨⟨0, 2020, 1⟩, 100, 1, 1⟩] = false ∧
      daysSpan [⟨⟨0, 2020, 1⟩, 100, 1, 1⟩] = 0 ∧
      ((⟨11/10, 1⟩ : CagrV).base = 1 + totalReturnOf
          [⟨⟨0, 2020, 1⟩, 100, 1, 1⟩, ⟨⟨1, 2020, 1⟩, 102, -1, 11/10⟩] ∧
        (⟨11/10, 1⟩ : CagrV).days = daysSpan
          [⟨⟨0, 2020, 1⟩, 100, 1, 1⟩, ⟨⟨1, 2020, 1⟩, 102, -1, 11/10⟩] ∧
        (⟨11/10, 1⟩ : CagrV).days ≠ 0 ∧
        calculate_metrics [⟨⟨0, 2020, 1⟩, 100, 1, 1⟩] (some "beta") =
          .error "ZeroDivisionError") :=
  ⟨by with_unfolding_all decide, by with_unfolding_all decide,
    by with_unfolding_all decide, by with_unfolding_all decide,
    C7_unguarded_cagr
      [⟨⟨0, 2020, 1⟩, 100, 1, 1⟩, ⟨⟨1, 2020, 1⟩, 102, -1, 11/10⟩]
      [⟨⟨0, 2020, 1⟩, 100, 1, 1⟩] (some "beta") ⟨11/10, 1⟩
      (by with_unfolding_all decide) (by with_unfolding_all decide)
      (by with_unfolding_all decide) (by with_unfolding_all decide)⟩

/-! ## C9: the input table is mutated in place -/

/-- C9: the claim says the caller's table is left unchanged.  On a two-row
frame with one completed trade whose derived columns start out absent, the
table object coming back from the call differs from the one passed in: the
`Daily_Return`, `Peak` and `Drawdown` columns have appeared. -/
theorem C9_counterexample :
    (calculate_metricsFrame
        ⟨[⟨⟨0, 2020, 1⟩, 100, 1, 1⟩, ⟨⟨1, 2020, 1⟩, 102, -1, 1⟩],
          none, none, none⟩ (some "alpha")).2 ≠
      ⟨[⟨⟨0, 2020, 1⟩, 100, 1, 1⟩, ⟨⟨1, 2020, 1⟩, 102, -1, 1⟩],
        none, none, none⟩ := by
  with_unfolding_all decide

/-- C9 (amended): `calculate_metrics` never touches the four input columns,
but it is not side-effect-free on the caller's table: on every run that
passes the signal checks and the day-span division it writes the
`Daily_Return`, `Peak` and `Drawdown` columns into the table in place
(lines 62, 68-69); on the early-return paths the table is unchanged. -/
theorem C9_writes_columns (f : Frame) (name : Option String) :
    (calculate_metricsFrame f name).2.rows = f.rows ∧
      ((calculate_metricsFrame f name).2 = f ∨
        (calculate_metricsFrame f name).2 =
          { f with dailyReturn := some (pctChange0 (f.rows.map Row.equity))
                   peak := some (cummaxList (f.rows.map Row.equity))
                   drawdown := some (drawdownCol (f.rows.map Row.equity)) }) := by
  unfold calculate_metricsFrame
  split_ifs <;>
    first
    | exact ⟨rfl, Or.inl rfl⟩
    | exact ⟨rfl, Or.inr rfl⟩

/-! ## C6: Sharpe on a zero-variance return series -/

theorem listSum_cons (a : ℚ) (l : List ℚ) : listSum (a :: l) = a + listSum l :=
  rfl

theorem listSum_nonneg (l : List ℚ) (h : ∀ x ∈ l, 0 ≤ x) : 0 ≤ listSum l := by
  induction l with
  | nil => simp [listSum]
  | cons a l ih =>
    rw [listSum_cons]
    have := h a (by simp)
    have := ih fun x hx => h x (by simp [hx])
    linarith

theorem listSum_eq_zero (l : List ℚ) (h0 : ∀ x ∈ l, 0 ≤ x)
    (h : listSum l = 0) : ∀ x ∈ l, x = 0 := by
  induction l with
  | nil => simp
  | cons a l ih =>
    rw [listSum_cons] at h
    have ha := h0 a (by simp)
    have hs := listSum_nonneg l fun x hx => h0 x (by simp [hx])
    have ha0 : a = 0 := by linarith
    have hl0 : listSum l = 0 := by linarith
    intro x hx
    rcases List.mem_cons.mp hx with rfl | hx
    · exact ha0
    · exact ih (fun z hz => h0 z (by simp [hz])) hl0 x hx

theorem eq_mean_of_sampleVar_zero (l : List ℚ) (h2 : 2 ≤ l.length)
    (h : sampleVar l = 0) : ∀ x ∈ l, x = listMean l := by
  rw [sampleVar, div_eq_zero_iff] at h
  rcases h with h | h
  · intro x hx
    have hsq := listSum_eq_zero (l.map fun x => (x - listMean l) ^ 2)
      (by rintro z hz
          obtain ⟨w, -, rfl⟩ := List.mem_map.mp hz
          positivity) h ((x - listMean l) ^ 2) (List.mem_map_of_mem _ hx)
    have := pow_eq_zero_iff (n := 2) (by norm_num) |>.mp hsq
    linarith [sub_eq_zero.mp this]
  · exfalso
    have hl : (l.length : ℚ) = 1 := by linarith
    rw [show (1 : ℚ) = ((1 : ℕ) : ℚ) by norm_num, Nat.cast_inj] at hl
    omega

theorem sharpeOf_nan_of_var_zero (rets : List ℚ) (h0 : rets.get? 0 = some 0)
    (hv : sampleVar rets = 0) : sharpeOf rets = .nan := by
  have hmem : (0 : ℚ) ∈ rets := by
    rcases rets with - | ⟨a, l⟩
    · simp at h0
    · simp only [List.get?] at h0
      injection h0 with h0
      simp [← h0]
  unfold sharpeOf
  rcases le_or_lt rets.length 1 with h1 | h1
  · rw [if_pos h1]
  · have hmean := eq_mean_of_sampleVar_zero rets (by omega) hv 0 hmem
    rw [if_neg (by omega), if_pos hv,
      if_neg (show ¬(0 < listMean rets) by rw [← hmean]; exact lt_irrefl 0),
      if_neg (show ¬(listMean rets < 0) by rw [← hmean]; exact lt_irrefl 0)]

/-- C6: the claim says a zero-deviation return series resolves to a `±∞`
sentinel and never to a `NaN` reaching the formatted report.  On a constant
equity curve with one completed trade the Sharpe entry of the produced
report is `NaN` (numpy `0.0 / 0.0`), which the format string renders into
the report. -/
theorem C6_counterexample :
    sharpeOfResult (calculate_metrics
        [⟨⟨0, 2020, 1⟩, 100, 1, 1⟩, ⟨⟨1, 2020, 1⟩, 100, -1, 1⟩,
          ⟨⟨2, 2020, 1⟩, 100, 0, 1⟩] (some "alpha")) = some SharpeV.nan := by
  with_unfolding_all decide

/-- C6 (amended): the computation does not crash, but the sentinel policy is
not the claimed one.  Because the first entry of the `Daily_Return` series is
always the filled-in `0`, a zero-variance series necessarily has mean `0`,
so whenever `std = 0` the Sharpe entry of any produced report is `NaN`
(`0.0 / 0.0`) — never `±∞` — and it propagates into the report. -/
theorem C6_sharpe_nan (rows : List Row) (name : Option String) (s : SharpeV)
    (h : sharpeOfResult (calculate_metrics rows name) = some s)
    (hv : sampleVar (retsOf rows) = 0) : s = .nan := by
  rw [sharpeOfResult, Option.map_eq_some'] at h
  obtain ⟨m, hm, hs⟩ := h
  obtain ⟨t, heq⟩ := resultMetrics_some _ m hm
  have hguard := core_guards rows (isShortName name) m t heq
  have hsh : m.sharpe = sharpeOf (retsOf rows) := by
    rcases core_ok_cases rows (isShortName name) m t heq with ⟨rfl, -⟩ | ⟨rfl, -⟩ <;> rfl
  have h0 : (retsOf rows).get? 0 = some 0 := by
    rcases hne : rows with - | ⟨r, rest⟩
    · exact absurd hne hguard.2.2
    · rfl
  rw [← hs, hsh]
  exact sharpeOf_nan_of_var_zero _ h0 hv

/-- Witness for `C6_sharpe_nan` on the constant-equity frame. -/
theorem C6_sharpe_nan_witness :
    sharpeOfResult (calculate_metrics
        [⟨⟨0, 2020, 1⟩, 100, 1, 1⟩, ⟨⟨1, 2020, 1⟩, 100, -1, 1⟩,
          ⟨⟨2, 2020, 1⟩, 100, 0, 1⟩] (some "beta")) = some SharpeV.nan ∧
      sampleVar (retsOf
        [⟨⟨0, 2020, 1⟩, 100, 1, 1⟩, ⟨⟨1, 2020, 1⟩, 100, -1, 1⟩,
          ⟨⟨2, 2020, 1⟩, 100, 0, 1⟩]) = 0 ∧
      SharpeV.nan = SharpeV.nan :=
  ⟨by with_unfolding_all decide, by with_unfolding_all decide,
    C6_sharpe_nan
      [⟨⟨0, 2020, 1⟩, 100, 1, 1⟩, ⟨⟨1, 2020, 1⟩, 100, -1, 1⟩,
        ⟨⟨2, 2020, 1⟩, 100, 0, 1⟩]
      (some "beta") SharpeV.nan (by with_unfolding_all decide)
      (by with_unfolding_all decide)⟩

/-! ## C4: null exactly on no activity; incomplete activity gives the
partial report -/

theorem noStreamActivity_eq_false_iff (rows : List Row) :
    noStreamActivity rows = false ↔
      (hasBuySigs rows || hasSellSigs rows) = true := by
  unfold noStreamActivity
  cases hasBuySigs rows <;> cases hasSellSigs rows <;> simp

/-- C4: the analysis returns Python `None` exactly when the signal stream
contains neither a buy nor a sell signal; when signals exist but the trade
loop completed no trade, the result is the basic (partial) report — a real
report with empty trade log, zero trade count, and all six trade statistics
`"N/A"` (never `None`, never a zeroed report).  The day-span hypothesis
keeps the run away from the unrelated `ZeroDivisionError` of C7. -/
theorem C4_null_iff_no_activity (rows : List Row) (name : Option String)
    (hd : daysSpan rows ≠ 0) :
    (calculate_metrics rows name = .ok none ↔ noStreamActivity rows = true) ∧
      (noStreamActivity rows = false →
        tradesOf rows (isShortName name) = [] →
          isBasicReport (calculate_metrics rows name) = true) := by
  constructor
  · constructor
    · intro h
      by_contra hc
      have hfalse : noStreamActivity rows = false := by
        cases hn : noStreamActivity rows
        · rfl
        · exact absurd hn hc
      unfold calculate_metrics calculate_metricsCore at h
      rw [hfalse] at h
      rw [noDiffActivity_eq_false rows hfalse] at h
      simp only [Bool.false_eq_true, if_false] at h
      rw [if_neg hd] at h
      split_ifs at h with h4 h5
      · simp at h
      · rw [(noStreamActivity_eq_false_iff rows).mp hfalse] at h5
        simp at h5
      · simp at h
    · intro h
      unfold calculate_metrics calculate_metricsCore
      rw [h]
      rfl
  · intro hfalse htr
    unfold calculate_metrics calculate_metricsCore
    rw [hfalse]
    rw [noDiffActivity_eq_false rows hfalse]
    simp only [Bool.false_eq_true, if_false]
    rw [if_neg hd, htr]
    rw [if_pos (by rfl)]
    rw [if_pos ((noStreamActivity_eq_false_iff rows).mp hfalse)]
    rfl

/-- Witness for `C4_null_iff_no_activity` on a frame with one buy signal and
no completed trade. -/
theorem C4_null_iff_no_activity_witness :
    daysSpan [⟨⟨0, 2020, 1⟩, 100, 0, 1⟩, ⟨⟨1, 2020, 1⟩, 102, 1, 1⟩] ≠ 0 ∧
      ((calculate_metrics [⟨⟨0, 2020, 1⟩, 100, 0, 1⟩, ⟨⟨1, 2020, 1⟩, 102, 1, 1⟩]
          (some "alpha") = .ok none ↔
        noStreamActivity
          [⟨⟨0, 2020, 1⟩, 100, 0, 1⟩, ⟨⟨1, 2020, 1⟩, 102, 1, 1⟩] = true) ∧
      (noStreamActivity
          [⟨⟨0, 2020, 1⟩, 100, 0, 1⟩, ⟨⟨1, 2020, 1⟩, 102, 1, 1⟩] = false →
        tradesOf [⟨⟨0, 2020, 1⟩, 100, 0, 1⟩, ⟨⟨1, 2020, 1⟩, 102, 1, 1⟩]
            (isShortName (some "alpha")) = [] →
          isBasicReport (calculate_metrics
            [⟨⟨0, 2020, 1⟩, 100, 0, 1⟩, ⟨⟨1, 2020, 1⟩, 102, 1, 1⟩]
            (some "alpha")) = true)) :=
  ⟨by decide, C4_null_iff_no_activity _ (some "alpha") (by decide)⟩

/-! ## C3: lag-1 equity realization -/

theorem rsiIbsEquityAux_cons (b : Bool) (e q : ℚ) (p : ℤ × ℚ)
    (rest : List (ℤ × ℚ)) :
    ∃ v b' e',
      rsiIbsEquityAux b e q (p :: rest) = v :: rsiIbsEquityAux b' e' v rest ∧
        (v = q ∨ p.1 = -1) := by
  obtain ⟨s, c⟩ := p
  simp only [rsiIbsEquityAux]
  split_ifs with h1 h2
  · exact ⟨q, true, c, rfl, Or.inl rfl⟩
  · refine ⟨q * (1 + (c - e) / e), false, e, rfl, Or.inr ?_⟩
    simp only [Bool.and_eq_true, beq_iff_eq] at h2
    exact h2.1
  · exact ⟨q, b, e, rfl, Or.inl rfl⟩

theorem rsiIbsEquityAux_lag (l : List (ℤ × ℚ)) (b : Bool) (e q : ℚ) (j : ℕ)
    (y : ℚ) (h : (rsiIbsEquityAux b e q l).get? (j + 1) = some y) :
    (rsiIbsEquityAux b e q l).get? j = some y ∨
      ∃ p, l.get? (j + 1) = some p ∧ p.1 = -1 := by
  induction l generalizing b e q j with
  | nil => simp [rsiIbsEquityAux] at h
  | cons p rest ih =>
    obtain ⟨v, b', e', hshape, -⟩ := rsiIbsEquityAux_cons b e q p rest
    rw [hshape] at h ⊢
    cases j with
    | zero =>
      rw [List.get?_cons_succ] at h
      rcases rest with - | ⟨p2, rest2⟩
      · simp [rsiIbsEquityAux] at h
      · obtain ⟨v2, b2, e2, hshape2, hv2⟩ := rsiIbsEquityAux_cons b' e' v p2 rest2
        rw [hshape2, List.get?_cons_zero] at h
        injection h with h
        rcases hv2 with rfl | hp
        · left
          rw [List.get?_cons_zero, h]
        · right
          exact ⟨p2, rfl, hp⟩
    | succ k =>
      rw [List.get?_cons_succ] at h
      rcases ih b' e' v k h with hl | ⟨p2, hp2, hp⟩
      · left
        rw [List.get?_cons_succ]
        exact hl
      · right
        refine ⟨p2, ?_, hp⟩
        rw [List.get?_cons_succ]
        exact hp2

theorem get?_dropLast {α : Type} (l : List α) (i : ℕ) (x : α)
    (h : l.dropLast.get? i = some x) : l.get? i = some x := by
  induction l generalizing i with
  | nil => simp at h
  | cons a l ih =>
    rcases l with - | ⟨b, l2⟩
    · simp [List.dropLast] at h
    · have hd : (a :: b :: l2).dropLast = a :: (b :: l2).dropLast := rfl
      rw [hd] at h
      cases i with
      | zero =>
        rw [List.get?_cons_zero] at h ⊢
        exact h
      | succ k =>
        rw [List.get?_cons_succ] at h ⊢
        exact ih k h

theorem get?_zip_fst {α β : Type} (as : List α) (bs : List β) (i : ℕ)
    (p : α × β) (h : (as.zip bs).get? i = some p) : as.get? i = some p.1 := by
  induction as generalizing bs i with
  | nil => simp at h
  | cons a as ih =>
    rcases bs with - | ⟨b, bs⟩
    · rw [List.zip_nil_right] at h
      simp at h
    · rw [List.zip_cons_cons] at h
      cases i with
      | zero =>
        rw [List.get?_cons_zero] at h ⊢
        injection h with h
        rw [← h]
      | succ k =>
        rw [List.get?_cons_succ] at h ⊢
        exact ih bs k h

/-- C3: the claim says equity realizes with a one-day lag in every
direction.  The short strategy's loop contradicts it: on signals
`[0, -1, 1]` with closes `[100, 90, 80]` the produced equity curve is
`[1, 1, 10/9]` — the value at index 2 changes on the very bar where the
cover (`Exit`) signal is recorded, although no close occurred at index 1
(the claim requires `equity[2] = equity[1] = 1` there). -/
theorem C3_counterexample :
    shortRsi2Equity [0, -1, 1] [100, 90, 80] = [1, 1, 10/9] ∧
      (10/9 : ℚ) ≠ 1 := by
  with_unfolding_all decide

/-- C3 (amended): the long strategy's loop (`rsi_ibs_mean_reversion`) does
realize with a one-day lag — an equity value can differ from its predecessor
only when a sell signal stands on the previous bar — and the claimed
scenario holds exactly (one long trade entered at 102, exited at 105,
return `300/102 % ≈ 2.94 %`, equity `[1, 1, 1, 1, 105/102]`).  The short
strategy's loop (`short_rsi2_above_90_strategy`) instead applies the trade
return on the bar carrying the cover signal itself, as
`C3_counterexample` shows. -/
theorem C3_long_lag (sigs : List ℤ) (closes : List ℚ) (t : ℕ) (y : ℚ)
    (h : (rsiIbsEquity sigs closes).get? (t + 1) = some y) :
    ((rsiIbsEquity sigs closes).get? t = some y ∨ sigs.get? t = some (-1)) ∧
      rsiIbsEquity [0, 1, 0, -1, 0] [100, 102, 101, 105, 103] =
        [1, 1, 1, 1, 105/102] ∧
      tradesOf [⟨⟨0, 2020, 1⟩, 100, 0, 1⟩, ⟨⟨1, 2020, 1⟩, 102, 1, 1⟩,
          ⟨⟨2, 2020, 1⟩, 101, 0, 1⟩, ⟨⟨3, 2020, 1⟩, 105, -1, 1⟩,
          ⟨⟨4, 2020, 1⟩, 103, 0, 1⟩] false =
        [⟨⟨1, 2020, 1⟩, ⟨3, 2020, 1⟩, 102, 105, false, 300/102⟩] := by
  refine ⟨?_, by with_unfolding_all decide, by with_unfolding_all decide⟩
  unfold rsiIbsEquity at h ⊢
  split_ifs at h ⊢ with hc
  · simp at h
  · rw [List.get?_cons_succ] at h
    cases t with
    | zero =>
      rcases hp : (sigs.zip closes).dropLast with - | ⟨p, rest⟩
      · rw [hp] at h
        simp [rsiIbsEquityAux] at h
      · rw [hp] at h
        obtain ⟨v, b', e', hshape, hv⟩ := rsiIbsEquityAux_cons false 0 1 p rest
        rw [hshape, List.get?_cons_zero] at h
        injection h with h
        rcases hv with rfl | hneg
        · left
          rw [List.get?_cons_zero, h]
        · right
          have h1 : (sigs.zip closes).dropLast.get? 0 = some p := by
            rw [hp]
            rfl
          have h2 := get?_zip_fst sigs closes 0 p (get?_dropLast _ 0 p h1)
          rw [hneg] at h2
          exact h2
    | succ k =>
      rcases rsiIbsEquityAux_lag _ false 0 1 k y h with hl | ⟨p, hp, hneg⟩
      · left
        rw [List.get?_cons_succ]
        exact hl
      · right
        have h2 := get?_zip_fst sigs closes (k + 1) p (get?_dropLast _ (k + 1) p hp)
        rw [hneg] at h2
        exact h2

/-- Witness for `C3_long_lag` at index 3 of the scenario run. -/
theorem C3_long_lag_witness :
    (rsiIbsEquity [0, 1, 0, -1, 0] [100, 102, 101, 105, 103]).get? 4 =
        some (105/102) ∧
      (((rsiIbsEquity [0, 1, 0, -1, 0] [100, 102, 101, 105, 103]).get? 3 =
            some (105/102) ∨
          List.get? ([0, 1, 0, -1, 0] : List ℤ) 3 = some (-1)) ∧
        rsiIbsEquity [0, 1, 0, -1, 0] [100, 102, 101, 105, 103] =
          [1, 1, 1, 1, 105/102] ∧
        tradesOf [⟨⟨0, 2020, 1⟩, 100, 0, 1⟩, ⟨⟨1, 2020, 1⟩, 102, 1, 1⟩,
            ⟨⟨2, 2020, 1⟩, 101, 0, 1⟩, ⟨⟨3, 2020, 1⟩, 105, -1, 1⟩,
            ⟨⟨4, 2020, 1⟩, 103, 0, 1⟩] false =
          [⟨⟨1, 2020, 1⟩, ⟨3, 2020, 1⟩, 102, 105, false, 300/102⟩]) :=
  ⟨by with_unfolding_all decide,
    C3_long_lag [0, 1, 0, -1, 0] [100, 102, 101, 105, 103] 3 (105/102)
      (by with_unfolding_all decide)⟩

/-! ## C8: Time Active -/

theorem shortActiveAux_exit (sigs : List ℤ) (b : Bool) (i : ℕ)
    (h : sigs.get? i = some 1) :
    (shortActiveAux b sigs).get? i = some false := by
  induction sigs generalizing b i with
  | nil => simp at h
  | cons s rest ih =>
    cases i with
    | zero =>
      rw [List.get?_cons_zero] at h
      injection h with h
      subst h
      rfl
    | succ k =>
      rw [List.get?_cons_succ] at h
      simp only [shortActiveAux]
      rw [List.get?_cons_succ]
      exact ih _ k h

theorem shortActiveAux_enter (sigs : List ℤ) (b : Bool) (i : ℕ)
    (h : sigs.get? i = some (-1)) :
    (shortActiveAux b sigs).get? i = some true := by
  induction sigs generalizing b i with
  | nil => simp at h
  | cons s rest ih =>
    cases i with
    | zero =>
      rw [List.get?_cons_zero] at h
      injection h with h
      subst h
      rfl
    | succ k =>
      rw [List.get?_cons_succ] at h
      simp only [shortActiveAux]
      rw [List.get?_cons_succ]
      exact ih _ k h

theorem timeActive_of_result (rows : List Row) (name : Option String) (q : ℚ)
    (h : timeActiveValOfResult (calculate_metrics rows name) = some q) :
    q = timeActiveOf (rows.map Row.signal) (isShortName name) ∧ rows ≠ [] := by
  unfold timeActiveValOfResult at h
  rcases hm : resultMetrics (calculate_metrics rows name) with - | m
  · rw [hm] at h
    simp at h
  · rw [hm] at h
    obtain ⟨t, heq⟩ := resultMetrics_some _ m hm
    have hguard := core_guards rows (isShortName name) m t heq
    rcases core_ok_cases rows (isShortName name) m t heq with ⟨rfl, -⟩ | ⟨rfl, -⟩
    · simp [basicMetricsOf] at h
    · simp only [fullMetricsOf] at h
      injection h with h
      exact ⟨h.symm, hguard.2.2⟩

/-- C8: the claim says the short-direction replay still counts the day of
exit as active, and that the long-direction value is the fraction of days
the position is open.  On a short run with signals `[-1, 0, 1]` the code
reports `2/3` (the exit day is marked inactive, so not `1`); on a long run
with signals `[1, 0, -1]` — position held from the entry at bar 0 to the
exit at bar 2 — it reports `1/3`, the frequency of the value `1` in the
signal column, not the fraction of days in position. -/
theorem C8_counterexample :
    timeActiveValOfResult (calculate_metrics
        [⟨⟨0, 2020, 1⟩, 100, -1, 1⟩, ⟨⟨1, 2020, 1⟩, 95, 0, 1⟩,
          ⟨⟨2, 2020, 1⟩, 90, 1, 1⟩] (some "short")) = some (2/3) ∧
      (2/3 : ℚ) ≠ 1 ∧
      timeActiveValOfResult (calculate_metrics
        [⟨⟨0, 2020, 1⟩, 100, 1, 1⟩, ⟨⟨1, 2020, 1⟩, 101, 0, 1⟩,
          ⟨⟨2, 2020, 1⟩, 102, -1, 1⟩] (some "alpha")) = some (1/3) ∧
      (1/3 : ℚ) ≠ 2/3 := by
  with_unfolding_all decide

/-- C8 (amended): `Time Active = days_in_market / total_days`, where for a
short-direction run `days_in_market` replays the position state over the
signal stream with the day of an entry signal counted active and the day of
the cover signal counted *inactive*, and for a long-direction run it is the
count of days whose signal equals `1` (the entry flags), not the days the
position is open. -/
theorem C8_time_active (rowsS rowsL : List Row) (nameS nameL : Option String)
    (qS qL : ℚ) (i : ℕ)
    (hS : isShortName nameS = true)
    (hqS : timeActiveValOfResult (calculate_metrics rowsS nameS) = some qS)
    (hiS : (rowsS.map Row.signal).get? i = some 1)
    (hL : isShortName nameL = false)
    (hqL : timeActiveValOfResult (calculate_metrics rowsL nameL) = some qL) :
    qS = ((shortActiveAux false (rowsS.map Row.signal)).count true : ℚ) /
        (rowsS.map Row.signal).length ∧
      (shortActiveAux false (rowsS.map Row.signal)).get? i = some false ∧
      qL = ((rowsL.map Row.signal).count 1 : ℚ) /
        (rowsL.map Row.signal).length := by
  obtain ⟨h1, hne1⟩ := timeActive_of_result rowsS nameS qS hqS
  obtain ⟨h2, hne2⟩ := timeActive_of_result rowsL nameL qL hqL
  rw [hS] at h1
  rw [hL] at h2
  refine ⟨?_, shortActiveAux_exit _ false i hiS, ?_⟩
  · rw [timeActiveOf, if_pos (by
      rw [List.length_map]
      exact List.length_pos.mpr hne1)] at h1
    rw [h1]
    simp [daysInMarket]
  · rw [timeActiveOf, if_pos (by
      rw [List.length_map]
      exact List.length_pos.mpr hne2)] at h2
    rw [h2]
    simp [daysInMarket]

/-- Witness for `C8_time_active` on the two three-day runs of
`C8_counterexample`. -/
theorem C8_time_active_witness :
    isShortName (some "short beta") = true ∧
      timeActiveValOfResult (calculate_metrics
        [⟨⟨0, 2020, 1⟩, 100, -1, 1⟩, ⟨⟨1, 2020, 1⟩, 95, 0, 1⟩,
          ⟨⟨2, 2020, 1⟩, 90, 1, 1⟩] (some "short beta")) = some (2/3) ∧
      (List.map Row.signal
        [⟨⟨0, 2020, 1⟩, 100, -1, 1⟩, ⟨⟨1, 2020, 1⟩, 95, 0, 1⟩,
          ⟨⟨2, 2020, 1⟩, 90, 1, 1⟩]).get? 2 = some 1 ∧
      isShortName (some "gamma") = false ∧
      timeActiveValOfResult (calculate_metrics
        [⟨⟨0, 2020, 1⟩, 100, 1, 1⟩, ⟨⟨1, 2020, 1⟩, 101, 0, 1⟩,
          ⟨⟨2, 2020, 1⟩, 102, -1, 1⟩] (some "gamma")) = some (1/3) ∧
      ((2 : ℚ)/3 = ((shortActiveAux false (List.map Row.signal
          [⟨⟨0, 2020, 1⟩, 100, -1, 1⟩, ⟨⟨1, 2020, 1⟩, 95, 0, 1⟩,
            ⟨⟨2, 2020, 1⟩, 90, 1, 1⟩])).count true : ℚ) /
          (List.map Row.signal
            [⟨⟨0, 2020, 1⟩, 100, -1, 1⟩, ⟨⟨1, 2020, 1⟩, 95, 0, 1⟩,
              ⟨⟨2, 2020, 1⟩, 90, 1, 1⟩]).length ∧
        (shortActiveAux false (List.map Row.signal
          [⟨⟨0, 2020, 1⟩, 100, -1, 1⟩, ⟨⟨1, 2020, 1⟩, 95, 0, 1⟩,
            ⟨⟨2, 2020, 1⟩, 90, 1, 1⟩])).get? 2 = some false ∧
        (1 : ℚ)/3 = ((List.map Row.signal
            [⟨⟨0, 2020, 1⟩, 100, 1, 1⟩, ⟨⟨1, 2020, 1⟩, 101, 0, 1⟩,
              ⟨⟨2, 2020, 1⟩, 102, -1, 1⟩]).count 1 : ℚ) /
          (List.map Row.signal
            [⟨⟨0, 2020, 1⟩, 100, 1, 1⟩, ⟨⟨1, 2020, 1⟩, 101, 0, 1⟩,
              ⟨⟨2, 2020, 1⟩, 102, -1, 1⟩]).length) :=
  ⟨by with_unfolding_all decide, by with_unfolding_all decide,
    by with_unfolding_all decide, by with_unfolding_all decide,
    by with_unfolding_all decide,
    C8_time_active
      [⟨⟨0, 2020, 1⟩, 100, -1, 1⟩, ⟨⟨1, 2020, 1⟩, 95, 0, 1⟩,
        ⟨⟨2, 2020, 1⟩, 90, 1, 1⟩]
      [⟨⟨0, 2020, 1⟩, 100, 1, 1⟩, ⟨⟨1, 2020, 1⟩, 101, 0, 1⟩,
        ⟨⟨2, 2020, 1⟩, 102, -1, 1⟩]
      (some "short beta") (some "gamma") (2/3) (1/3) 2
      (by with_unfolding_all decide) (by with_unfolding_all decide)
      (by with_unfolding_all decide) (by with_unfolding_all decide)
      (by with_unfolding_all decide)⟩

/-! ## C2: drawdown monotonicity -/

theorem listMin_mem (l : List ℚ) (h : l ≠ []) : listMin l ∈ l := by
  induction l with
  | nil => exact absurd rfl h
  | cons a l ih =>
    rcases l with - | ⟨b, l2⟩
    · simp [listMin]
    · rw [show listMin (a :: b :: l2) = min a (listMin (b :: l2)) from rfl]
      rcases min_cases a (listMin (b :: l2)) with ⟨hmin, -⟩ | ⟨hmin, -⟩
      · rw [hmin]
        simp
      · rw [hmin]
        exact List.mem_cons_of_mem a (ih (by simp))

theorem ddAux_nonpos (l : List ℚ) (peak : ℚ) (hp : 0 ≤ peak)
    (hl : ∀ e ∈ l, 0 < e) : ∀ x ∈ ddAux peak l, x ≤ 0 := by
  induction l generalizing peak with
  | nil => simp [ddAux]
  | cons e l ih =>
    intro x hx
    have he : 0 < e := hl e (by simp)
    have hpe : 0 < max peak e := lt_max_of_lt_right he
    simp only [ddAux] at hx
    rcases List.mem_cons.mp hx with rfl | hx
    · apply div_nonpos_of_nonpos_of_nonneg
      · have := le_max_right peak e
        linarith
      · exact hpe.le
    · exact ih (max peak e) hpe.le (fun z hz => hl z (by simp [hz])) x hx

theorem ddList_ne_nil (es : List ℚ) (h : es ≠ []) : ddList es ≠ [] := by
  rcases es with - | ⟨e, l⟩
  · exact absurd rfl h
  · simp [ddList, ddAux]

theorem okOr_ok (v fallback : ℚ) : okOr (.ok v) fallback = v := rfl

theorem monthlyDDAdjust_value (m d : ℚ) :
    ∃ v, monthlyDDAdjust m d = .ok v ∧
      (v = d * (19 / 20) ∨ (v = m ∧ d ≤ m)) := by
  unfold monthlyDDAdjust monthlyDDClamp
  rcases lt_or_le m d with hmd | hmd
  · rw [if_pos hmd, sub_self, if_pos (by norm_num [ratAbs])]
    exact ⟨d * (19 / 20), rfl, Or.inl rfl⟩
  · rw [if_neg (not_lt.mpr hmd)]
    by_cases hr : ratAbs (m - d) < 1 / 1000
    · rw [if_pos hr]
      exact ⟨d * (19 / 20), rfl, Or.inl rfl⟩
    · rw [if_neg hr]
      exact ⟨m, rfl, Or.inr ⟨rfl, hmd⟩⟩

theorem dailyMaxDD_nonpos (rows : List Row) (hne : rows ≠ [])
    (hpos : ∀ r ∈ rows, 0 < r.equity) : dailyMaxDDOf rows ≤ 0 := by
  have hmapne : rows.map Row.equity ≠ [] := by
    simpa [List.map_eq_nil_iff] using hne
  have hmem := listMin_mem (ddList (rows.map Row.equity))
    (ddList_ne_nil _ hmapne)
  exact ddAux_nonpos (rows.map Row.equity) 0 le_rfl
    (by
      intro e hemem
      obtain ⟨r, hr, rfl⟩ := List.mem_map.mp hemem
      exact hpos r hr) _ hmem

theorem monthEnds_sublist (rows : List Row) :
    (monthEnds rows).Sublist (rows.map Row.equity) := by
  induction rows with
  | nil => simp [monthEnds]
  | cons r rest ih =>
    rcases rest with - | ⟨r2, l⟩
    · simp [monthEnds]
    · rw [List.map_cons]
      unfold monthEnds
      split_ifs
      · exact List.Sublist.cons r.equity ih
      · exact List.Sublist.cons₂ r.equity ih

theorem monthlyMaxDD_bounds (rows : List Row) (hne : rows ≠ [])
    (hpos : ∀ r ∈ rows, 0 < r.equity) :
    dailyMaxDDOf rows ≤ monthlyMaxDDOf rows (dailyMaxDDOf rows) ∧
      monthlyMaxDDOf rows (dailyMaxDDOf rows) ≤ 0 ∧ dailyMaxDDOf rows ≤ 0 := by
  have hd0 : dailyMaxDDOf rows ≤ 0 := dailyMaxDD_nonpos rows hne hpos
  have hmappos : ∀ e ∈ rows.map Row.equity, 0 < e := by
    intro e hemem
    obtain ⟨r, hr, rfl⟩ := List.mem_map.mp hemem
    exact hpos r hr
  unfold monthlyMaxDDOf
  split_ifs with hlen
  · have hsample_ne : monthEnds rows ≠ [] := by
      apply List.ne_nil_of_length_pos
      omega
    have hsample_pos : ∀ e ∈ monthEnds rows, 0 < e := fun e hemem =>
      hmappos e ((monthEnds_sublist rows).subset hemem)
    have hm0 : listMin (ddList (monthEnds rows)) ≤ 0 :=
      ddAux_nonpos (monthEnds rows) 0 le_rfl hsample_pos _
        (listMin_mem _ (ddList_ne_nil _ hsample_ne))
    obtain ⟨v, hv, hcase⟩ :=
      monthlyDDAdjust_value (listMin (ddList (monthEnds rows)))
        (dailyMaxDDOf rows)
    rw [hv, okOr_ok]
    rcases hcase with rfl | ⟨rfl, hge⟩
    · exact ⟨by linarith, by linarith, hd0⟩
    · exact ⟨hge, hm0, hd0⟩
  · exact ⟨by linarith, by linarith, hd0⟩

/-- C2: on every frame with positive equity values, whenever a report is
produced its Monthly Max Drawdown is no more negative than its Daily Max
Drawdown and both are `≤ 0` — the code enforces this by construction (the
clamp of lines 103-112, the `* 0.95` / `* 0.9` rescalings, and the
nonpositivity of every drawdown of a positive series). -/
theorem C2_drawdown_monotone (rows : List Row) (name : Option String)
    (p : ℚ × ℚ)
    (hpos : rows.all (fun r => decide (0 < r.equity)) = true)
    (h : ddOfResult (calculate_metrics rows name) = some p) :
    p.1 ≤ p.2 ∧ p.1 ≤ 0 ∧ p.2 ≤ 0 := by
  have hpos' : ∀ r ∈ rows, 0 < r.equity := by
    intro r hr
    have := List.all_eq_true.mp hpos r hr
    exact of_decide_eq_true this
  rw [ddOfResult, Option.map_eq_some'] at h
  obtain ⟨m, hm, hp⟩ := h
  obtain ⟨t, heq⟩ := resultMetrics_some _ m hm
  have hguard := core_guards rows (isShortName name) m t heq
  have hfields : m.dailyMaxDD = dailyMaxDDOf rows ∧
      m.monthlyMaxDD = monthlyMaxDDOf rows (dailyMaxDDOf rows) := by
    rcases core_ok_cases rows (isShortName name) m t heq with ⟨rfl, -⟩ | ⟨rfl, -⟩ <;>
      exact ⟨rfl, rfl⟩
  obtain ⟨hbound1, hbound2, hbound3⟩ :=
    monthlyMaxDD_bounds rows hguard.2.2 hpos'
  rw [← hp]
  simp only [hfields.1, hfields.2]
  exact ⟨hbound1, hbound3, hbound2⟩

/-- Witness for `C2_drawdown_monotone` on a two-day frame with a 10 %
drawdown: the report carries daily `-1/10` and monthly `-9/100`. -/
theorem C2_drawdown_monotone_witness :
    List.all ([⟨⟨0, 2020, 1⟩, 100, 1, 1⟩, ⟨⟨1, 2020, 1⟩, 90, -1, 9/10⟩] :
          List Row)
        (fun r => decide (0 < r.equity)) = true ∧
      ddOfResult (calculate_metrics
        [⟨⟨0, 2020, 1⟩, 100, 1, 1⟩, ⟨⟨1, 2020, 1⟩, 90, -1, 9/10⟩]
        (some "alpha")) = some (-1/10, -9/100) ∧
      ((-1/10 : ℚ) ≤ -9/100 ∧ (-1/10 : ℚ) ≤ 0 ∧ (-9/100 : ℚ) ≤ 0) :=
  ⟨by with_unfolding_all decide, by with_unfolding_all decide,
    C2_drawdown_monotone
      [⟨⟨0, 2020, 1⟩, 100, 1, 1⟩, ⟨⟨1, 2020, 1⟩, 90, -1, 9/10⟩]
      (some "alpha") (-1/10, -9/100) (by with_unfolding_all decide)
      (by with_unfolding_all decide)⟩

/-! ## C10: the monthly-returns table -/

theorem groupProd_cons_some (k : ℤ × ℤ) (v : ℚ)
    (l : List ((ℤ × ℤ) × Option ℚ)) :
    groupProd ((k, some v) :: l) = (1 + v) * groupProd l := rfl

theorem groupProd_cons_none (k : ℤ × ℤ) (l : List ((ℤ × ℤ) × Option ℚ)) :
    groupProd ((k, none) :: l) = groupProd l := rfl

theorem groupProd_filter_split (l : List ((ℤ × ℤ) × Option ℚ))
    (p : (ℤ × ℤ) × Option ℚ → Bool) :
    groupProd (l.filter p) * groupProd (l.filter fun x => !p x) =
      groupProd l := by
  induction l with
  | nil => norm_num [groupProd]
  | cons x l ih =>
    obtain ⟨k, ov⟩ := x
    cases hpx : p (k, ov)
    · rw [List.filter_cons_of_neg (by simp [hpx]),
        List.filter_cons_of_pos (by simp [hpx])]
      cases ov
      · rw [groupProd_cons_none, groupProd_cons_none, ih]
      · rw [groupProd_cons_some, groupProd_cons_some, ← ih]
        ring
    · rw [List.filter_cons_of_pos (by simp [hpx]),
        List.filter_cons_of_neg (by simp [hpx])]
      cases ov
      · rw [groupProd_cons_none, groupProd_cons_none, ih]
      · rw [groupProd_cons_some, groupProd_cons_some, ← ih]
        ring

theorem groupProd_partition (keys : List (ℤ × ℤ))
    (l : List ((ℤ × ℤ) × Option ℚ)) (hnd : keys.Nodup)
    (hcov : ∀ x ∈ l, x.1 ∈ keys) :
    (keys.map fun k => groupProd (l.filter fun x => x.1 == k)).foldr
        (· * ·) 1 = groupProd l := by
  induction keys generalizing l with
  | nil =>
    rcases l with - | ⟨x, l⟩
    · rfl
    · exact absurd (hcov x (by simp)) (by simp)
  | cons k ks ih =>
    rw [List.map_cons, List.foldr_cons]
    have hks : ∀ k' ∈ ks,
        ((l.filter fun x => !(x.1 == k)).filter fun x => x.1 == k') =
          l.filter fun x => x.1 == k' := by
      intro k' hk'
      have hkk : k' ≠ k := by
        rintro rfl
        exact (List.nodup_cons.mp hnd).1 hk'
      rw [List.filter_filter]
      apply List.filter_congr
      intro a ha
      by_cases hak : a.1 = k'
      · simp [hak, hkk]
      · simp [hak]
    have hcov' : ∀ x ∈ l.filter fun x => !(x.1 == k), x.1 ∈ ks := by
      intro x hx
      rw [List.mem_filter] at hx
      rcases List.mem_cons.mp (hcov x hx.1) with heq | hin
      · exfalso
        rw [heq] at hx
        simp at hx
      · exact hin
    have hih := ih (l.filter fun x => !(x.1 == k))
      (List.nodup_cons.mp hnd).2 hcov'
    calc groupProd (l.filter fun x => x.1 == k) *
          (ks.map fun k' => groupProd (l.filter fun x => x.1 == k')).foldr
            (· * ·) 1
        = groupProd (l.filter fun x => x.1 == k) *
          (ks.map fun k' =>
            groupProd ((l.filter fun x => !(x.1 == k)).filter
              fun x => x.1 == k')).foldr (· * ·) 1 := by
          rw [List.map_congr_left fun k' hk' => by rw [← hks k' hk']]
      _ = groupProd (l.filter fun x => x.1 == k) *
          groupProd (l.filter fun x => !(x.1 == k)) := by rw [hih]
      _ = groupProd l := groupProd_filter_split l _

theorem foldr_one_add_sub (g : ℤ → ℚ) (ms : List ℤ) :
    (ms.map fun m => g m - 1).foldr (fun r acc => (1 + r) * acc) 1 =
      (ms.map g).foldr (· * ·) 1 := by
  induction ms with
  | nil => rfl
  | cons m ms ih =>
    rw [List.map_cons, List.foldr_cons, ih, List.map_cons, List.foldr_cons]
    ring

theorem yearlyVal_eq_compound_daily (l : List ((ℤ × ℤ) × Option ℚ)) (y : ℤ) :
    yearlyVal l y =
      compound ((l.filter fun x => x.1.1 == y).filterMap Prod.snd) := by
  have hnd : ((monthsOfYear l y).map fun m => ((y, m) : ℤ × ℤ)).Nodup := by
    refine List.Nodup.map ?_ (List.nodup_dedup _)
    intro a b hab
    exact ((Prod.mk.injEq _ _ _ _).mp hab).2
  have hcov : ∀ x ∈ l.filter fun x => x.1.1 == y,
      x.1 ∈ (monthsOfYear l y).map fun m => ((y, m) : ℤ × ℤ) := by
    intro x hx
    rw [List.mem_filter] at hx
    obtain ⟨hxl, hxy⟩ := hx
    rw [beq_iff_eq] at hxy
    rw [List.mem_map]
    refine ⟨x.1.2, ?_, ?_⟩
    · unfold monthsOfYear
      rw [List.mem_dedup, List.mem_map]
      refine ⟨x.1, ?_, rfl⟩
      rw [List.mem_filter]
      exact ⟨List.mem_map_of_mem _ hxl, by rw [beq_iff_eq]; exact hxy⟩
    · rw [← hxy]
  unfold yearlyVal compound monthGroupVal
  congr 1
  rw [foldr_one_add_sub
    (fun m => groupProd (l.filter fun x => x.1 == ((y, m) : ℤ × ℤ)))
    (monthsOfYear l y)]
  show (List.map (fun m => groupProd (l.filter fun x => x.1 == ((y, m) : ℤ × ℤ)))
      (monthsOfYear l y)).foldr (· * ·) 1 =
    groupProd (l.filter fun x => x.1.1 == y)
  have hmm : List.map (fun m => groupProd (l.filter fun x => x.1 == ((y, m) : ℤ × ℤ)))
      (monthsOfYear l y) =
      ((monthsOfYear l y).map fun m => ((y, m) : ℤ × ℤ)).map
        fun k => groupProd (l.filter fun x => x.1 == k) := by
    rw [List.map_map]
    rfl
  rw [hmm]
  have hkey_filter : ∀ k ∈ (monthsOfYear l y).map fun m => ((y, m) : ℤ × ℤ),
      l.filter (fun x => x.1 == k) =
        (l.filter fun x => x.1.1 == y).filter fun x => x.1 == k := by
    intro k hk
    obtain ⟨m, hm, rfl⟩ := List.mem_map.mp hk
    rw [List.filter_filter]
    apply List.filter_congr
    intro a ha
    by_cases hak : a.1 = (y, m)
    · simp [hak]
    · simp [hak]
  rw [List.map_congr_left fun k hk => by rw [hkey_filter k hk]]
  exact groupProd_partition _ _ hnd hcov

/-- C10: the claim's numeric example is wrong: the monthly returns
`[0.02, -0.01, 0.03]` compound to `1.02 * 0.99 * 1.03 - 1 = 0.040094`,
which is not `≈ 0.0398` (it differs from `0.0398` by `0.000294`, far beyond
the rounding tolerance `0.00005` of that many significant digits — the
correctly rounded value is `0.0401`). -/
theorem C10_counterexample :
    compound [2/100, -1/100, 3/100] = 20047/500000 ∧
      ratAbs (20047/500000 - 398/10000) = 147/500000 ∧
      (5 : ℚ)/100000 < 147/500000 := by
  refine ⟨by norm_num [compound], by norm_num [ratAbs], by norm_num⟩

/-- C10 (amended): the table groups daily returns by `(year, month)` and
compounds multiplicatively for both the strategy and the benchmark; each
yearly total compounds that year's monthly returns — equivalently, it equals
the compounded product of all of that year's daily returns, not their sum —
and a year with no data compounds to `0`.  The example monthly returns
`[0.02, -0.01, 0.03]` compound to `20047/500000 = 0.040094 ≈ 0.0401`
(not `0.04`, and not the `0.0398` misstated in the spec). -/
theorem C10_monthly_compounding (rows rows0 : List Row) (isShort : Bool)
    (y y0 : ℤ)
    (h0 : (taggedStrat rows0).filter (fun x => x.1.1 == y0) = []) :
    stratYearly rows y =
        compound (((taggedStrat rows).filter fun x => x.1.1 == y).filterMap
          Prod.snd) ∧
      benchYearly rows isShort y =
        compound (((taggedBench rows isShort).filter fun x =>
          x.1.1 == y).filterMap Prod.snd) ∧
      stratYearly rows0 y0 = 0 ∧
      compound [2/100, -1/100, 3/100] = 20047/500000 ∧
      (2/100 : ℚ) + (-1/100) + 3/100 = 4/100 ∧
      (20047/500000 : ℚ) ≠ 4/100 := by
  refine ⟨yearlyVal_eq_compound_daily _ y, yearlyVal_eq_compound_daily _ y,
    ?_, by norm_num [compound], by norm_num, by norm_num⟩
  rw [stratYearly, yearlyVal_eq_compound_daily _ y0, h0]
  norm_num [compound]

/-- Witness for `C10_monthly_compounding`: a two-day January-2020 frame,
probed at its own year and at the empty year 2021. -/
theorem C10_monthly_compounding_witness :
    (taggedStrat [⟨⟨0, 2020, 1⟩, 100, 1, 1⟩,
        ⟨⟨1, 2020, 1⟩, 102, 0, 11/10⟩]).filter
        (fun x => x.1.1 == (2021 : ℤ)) = [] ∧
      (stratYearly [⟨⟨0, 2020, 1⟩, 100, 1, 1⟩,
          ⟨⟨1, 2020, 1⟩, 102, 0, 11/10⟩] 2020 =
        compound (((taggedStrat [⟨⟨0, 2020, 1⟩, 100, 1, 1⟩,
          ⟨⟨1, 2020, 1⟩, 102, 0, 11/10⟩]).filter fun x =>
            x.1.1 == (2020 : ℤ)).filterMap Prod.snd) ∧
      benchYearly [⟨⟨0, 2020, 1⟩, 100, 1, 1⟩,
          ⟨⟨1, 2020, 1⟩, 102, 0, 11/10⟩] true 2020 =
        compound (((taggedBench [⟨⟨0, 2020, 1⟩, 100, 1, 1⟩,
          ⟨⟨1, 2020, 1⟩, 102, 0, 11/10⟩] true).filter fun x =>
            x.1.1 == (2020 : ℤ)).filterMap Prod.snd) ∧
      stratYearly [⟨⟨0, 2020, 1⟩, 100, 1, 1⟩,
          ⟨⟨1, 2020, 1⟩, 102, 0, 11/10⟩] 2021 = 0 ∧
      compound [2/100, -1/100, 3/100] = 20047/500000 ∧
      (2/100 : ℚ) + (-1/100) + 3/100 = 4/100 ∧
      (20047/500000 : ℚ) ≠ 4/100) :=
  ⟨by with_unfolding_all decide,
    C10_monthly_compounding
      [⟨⟨0, 2020, 1⟩, 100, 1, 1⟩, ⟨⟨1, 2020, 1⟩, 102, 0, 11/10⟩]
      [⟨⟨0, 2020, 1⟩, 100, 1, 1⟩, ⟨⟨1, 2020, 1⟩, 102, 0, 11/10⟩]
      true 2020 2021 (by with_unfolding_all decide)⟩

end Backtest
